import Mathlib

/-!
Shallow embedding of the powerbi-quiz-app core: the scoring engine,
seeded shuffle, navigation clamp, bank merge and bank import checks.

Conventions used throughout:
* JS numbers that hold integral values (points, indices) are modelled as `Int`;
  32-bit wrapped values inside the PRNG are `Nat` with explicit `% 2 ^ 32`.
* JS `undefined`-able fields are `Option`; fields the code immediately
  defaults with `|| {}` / `|| []` are modelled as the defaulted collection.
* JS objects used as string-keyed maps are association lists
  (`List (String × _)`); `List.lookup` models property access.
* A JS function falling off the end of a `switch` (returning `undefined`),
  or crashing while dereferencing such a result, is modelled as `none`.
-/

/-- Result of scoring one question: the pass/fail flag and the awarded points
(`{ correct: boolean, points: number }` in the source). -/
structure ScoreRes where
  correct : Bool
  points : Int
deriving DecidableEq

/-- Scoring policy of a question: `scoring?: { mode?: "all_or_nothing" | "partial"; points?: number }`. -/
structure ScoringConf where
  mode : Option String
  points : Option Int
deriving DecidableEq

/-- A choice of a single/multi question: `{ id: string; text: string; isCorrect?: boolean }`.
The optional `isCorrect` is modelled as `Bool` (JS truthiness of `undefined` is `false`). -/
structure Choice where
  id : String
  text : String
  isCorrect : Bool
deriving DecidableEq

/-- Question record of src/unnamed/part_000. The source dispatches on the string
tag `type` at runtime, so the tag is kept as a `String` (`qtype`); fields that a
given type does not use are simply ignored by `scoreQuestion`, as in the source
where they are absent. `pairs` is the match ground truth (left id, right id),
`order` the correct ordering, `rows`/`correct` the matrix rows and ground
truth, `parts` the sub-questions of a case question. -/
inductive Question where
  | mk (id : String) (qtype : String) (scoring : Option ScoringConf)
      (choices : List Choice) (pairs : List (String × String))
      (order : List String) (rows : List String)
      (correct : List (String × String)) (parts : List Question)

/-- Accessor for the question id. -/
def Question.id : Question → String
  | .mk i _ _ _ _ _ _ _ _ => i

/-- Accessor for the runtime type tag. -/
def Question.qtype : Question → String
  | .mk _ t _ _ _ _ _ _ _ => t

/-- Accessor for the optional scoring policy. -/
def Question.scoring : Question → Option ScoringConf
  | .mk _ _ s _ _ _ _ _ _ => s

/-- Accessor for the choice list. -/
def Question.choices : Question → List Choice
  | .mk _ _ _ c _ _ _ _ _ => c

/-- Accessor for the match pairs (left choice id → correct right id). -/
def Question.pairs : Question → List (String × String)
  | .mk _ _ _ _ p _ _ _ _ => p

/-- Accessor for the correct ordering of an order question. -/
def Question.order : Question → List String
  | .mk _ _ _ _ _ o _ _ _ => o

/-- Accessor for the matrix row ids. -/
def Question.rows : Question → List String
  | .mk _ _ _ _ _ _ r _ _ => r

/-- Accessor for the matrix ground truth (row id → correct col id). -/
def Question.correct : Question → List (String × String)
  | .mk _ _ _ _ _ _ _ m _ => m

/-- Accessor for the parts of a case question. -/
def Question.parts : Question → List Question
  | .mk _ _ _ _ _ _ _ _ ps => ps

/-- Session answer record. `selected` stays `Option` because the single-choice
branch tests its presence; `selectedPairs`, `selectedOrder` and
`selectedMatrix` are defaulted by the source with `|| {}` / `|| []` at every
use, so they are modelled as the defaulted collection; `parts` maps a part id
to the sub-answer. -/
inductive SessionAnswer where
  | mk (selected : Option (List String)) (selectedPairs : List (String × String))
      (selectedOrder : List String) (selectedMatrix : List (String × String))
      (parts : List (String × SessionAnswer))

/-- Accessor for the selected choice ids of a single/multi answer. -/
def SessionAnswer.selected : SessionAnswer → Option (List String)
  | .mk s _ _ _ _ => s

/-- Accessor for the selected match pairing. -/
def SessionAnswer.selectedPairs : SessionAnswer → List (String × String)
  | .mk _ p _ _ _ => p

/-- Accessor for the selected ordering. -/
def SessionAnswer.selectedOrder : SessionAnswer → List String
  | .mk _ _ o _ _ => o

/-- Accessor for the selected matrix assignment. -/
def SessionAnswer.selectedMatrix : SessionAnswer → List (String × String)
  | .mk _ _ _ m _ => m

/-- Accessor for the per-part sub-answers of a case answer. -/
def SessionAnswer.parts : SessionAnswer → List (String × SessionAnswer)
  | .mk _ _ _ _ ps => ps

/-- Point budget of a question: `q.scoring?.points ?? 1`. -/
def qPoints (q : Question) : Int :=
  (q.scoring.bind (·.points)).getD 1

/-- Scoring mode of a question: `q.scoring?.mode ?? "all_or_nothing"`. -/
def qMode (q : Question) : String :=
  (q.scoring.bind (·.mode)).getD "all_or_nothing"

mutual
/-- Embedding of `scoreQuestion` (src/unnamed/part_000, lines 228-285).
The source `switch (q.type)` has no default branch, so an unknown type tag
falls off the switch and the function yields `undefined`: modelled as `none`.
In the case branch the source dereferences `res.points` of a recursive result,
which crashes when a part is itself unscorable; that crash is also `none`.
The multi branch builds JS `Set`s from the selected and correct id lists:
modelled by `List.dedup` (the fold over the set is order-insensitive). -/
def scoreQuestion (q : Question) (ans : SessionAnswer) : Option ScoreRes :=
  match q with
  | .mk _ qtype scoring choices pairs ord rows correctMap parts =>
    let points : Int := (scoring.bind (·.points)).getD 1
    let mode : String := (scoring.bind (·.mode)).getD "all_or_nothing"
    if qtype = "single" then
      let correctId : Option String := (choices.find? (·.isCorrect)).map (·.id)
      let ok : Bool :=
        match ans.selected with
        | none => false
        | some l => l.length == 1 && l.head? == correctId
      some ⟨ok, if ok then points else 0⟩
    else if qtype = "multi" then
      let correctIds : List String := (choices.filter (·.isCorrect)).map (·.id)
      let sel : List String := (ans.selected.getD []).dedup
      let allCorrect : Bool :=
        sel.length == correctIds.dedup.length && correctIds.dedup.all (fun cid => sel.contains cid)
      if mode = "all_or_nothing" then
        some ⟨allCorrect, if allCorrect then points else 0⟩
      else
        let raw : Int := sel.foldl (fun s cid => s + (if correctIds.contains cid then 1 else -1)) 0
        some ⟨allCorrect, max 0 (min points raw)⟩
    else if qtype = "match" then
      let allCorrect : Bool := pairs.all (fun kv => ans.selectedPairs.lookup kv.1 == some kv.2)
      some ⟨allCorrect, if allCorrect then points else 0⟩
    else if qtype = "order" then
      let allCorrect : Bool :=
        String.intercalate "|" ord == String.intercalate "|" ans.selectedOrder
      some ⟨allCorrect, if allCorrect then points else 0⟩
    else if qtype = "matrix" then
      let allCorrect : Bool :=
        rows.all (fun rid => correctMap.lookup rid == ans.selectedMatrix.lookup rid)
      some ⟨allCorrect, if allCorrect then points else 0⟩
    else if qtype = "case" then
      match scoreParts parts ans.parts with
      | none => none
      | some (total, gained) =>
        let cap : Int := (scoring.bind (·.points)).getD total
        some ⟨decide (gained ≥ total ∧ total > 0), min cap gained⟩
    else
      none

/-- The case-branch loop of `scoreQuestion`: accumulates, over the parts, the
total point budget (`part.scoring?.points ?? 1`) and the gained points of the
recursively scored sub-answer (an absent sub-answer scores `{false, 0}`). -/
def scoreParts : List Question → List (String × SessionAnswer) → Option (Int × Int)
  | [], _ => some (0, 0)
  | p :: rest, pans =>
    let res? : Option ScoreRes :=
      match pans.lookup p.id with
      | some a => scoreQuestion p a
      | none => some ⟨false, 0⟩
    match res? with
    | none => none
    | some res =>
      match scoreParts rest pans with
      | none => none
      | some (t, g) => some (t + (p.scoring.bind (·.points)).getD 1, g + res.points)
end

/-- Total possible points of a case question, in the words of the spec: the sum
of each part's own point budget, defaulting to 1 per part when unspecified. -/
def caseTotalSpec (q : Question) : Int :=
  (q.parts.map (fun p => (p.scoring.bind (·.points)).getD 1)).sum

/-- Points a single part contributes to the gained sum: the points awarded by
recursively scoring the part's sub-answer, 0 when the part has no sub-answer. -/
def partAward (pans : List (String × SessionAnswer)) (p : Question) : Int :=
  match pans.lookup p.id with
  | none => 0
  | some a =>
    match scoreQuestion p a with
    | some r => r.points
    | none => 0

/-- Gained points of a case question, in the words of the spec: the sum over
all parts of the points awarded to that part. -/
def caseGainedSpec (q : Question) (ans : SessionAnswer) : Int :=
  (q.parts.map (partAward ans.parts)).sum

/-- Declared point cap of a case question, in the words of the spec: the
declared `scoring.points`, defaulting to the sum of the part budgets. -/
def caseCapSpec (q : Question) : Int :=
  (q.scoring.bind (·.points)).getD (caseTotalSpec q)

/-- The selected ids of a single/multi answer (`ans.selected ?? []`). -/
def selIds (ans : SessionAnswer) : List String :=
  ans.selected.getD []

/-- The ids of the choices marked correct in a single/multi question. -/
def multiCorrectIds (q : Question) : List String :=
  (q.choices.filter (·.isCorrect)).map (·.id)

/-- Embedding of `clamp` (src/unnamed/part_000, lines 192-194):
`Math.max(min, Math.min(max, n))`. -/
def clamp (n mn mx : Int) : Int :=
  max mn (min mx n)

/-- The part of the persisted session state that navigation manipulates. -/
structure PersistedSession where
  questionOrder : List String
  currentIdx : Int
deriving DecidableEq

/-- Embedding of `goNext` (src/unnamed/part_000, lines 457-460): the cursor
moves to `clamp(currentIdx + 1, 0, questionOrder.length - 1)`. The implicit
commit of the draft answer does not touch the cursor and is omitted. -/
def goNext (s : PersistedSession) : PersistedSession :=
  { s with currentIdx := clamp (s.currentIdx + 1) 0 ((s.questionOrder.length : Int) - 1) }

/-- Embedding of `goPrev` (src/unnamed/part_000, lines 461-464). -/
def goPrev (s : PersistedSession) : PersistedSession :=
  { s with currentIdx := clamp (s.currentIdx - 1) 0 ((s.questionOrder.length : Int) - 1) }

/-- Embedding of the jump-to-index navigation (the question-list click handler
`setSession(prev => ({...prev, currentIdx: i}))`, src/unnamed/part_000 line
670): the target index is written directly, without clamping; every call site
produces an index enumerating `questionOrder`. -/
def jumpTo (s : PersistedSession) (i : Int) : PersistedSession :=
  { s with currentIdx := i }

/-- One step of `mulberry32` (src/src/App.tsx, lines 73-80) on the 32-bit
state: returns the 32-bit output numerator (the JS code divides it by `2^32`
to get a float in `[0,1)`) together with the updated state. All JS 32-bit
coercions (`>>> 0`, `Math.imul`, `ToInt32` at `^`) preserve bit patterns, so
the whole step is computed mod `2 ^ 32`. -/
def mulberry32Next (seed : Nat) : Nat × Nat :=
  let s := (seed + 0x6D2B79F5) % 2 ^ 32
  let t1 := ((s ^^^ (s >>> 15)) * (s ||| 1)) % 2 ^ 32
  let t2 := t1 ^^^ ((t1 + ((t1 ^^^ (t1 >>> 7)) * (t1 ||| 61)) % 2 ^ 32) % 2 ^ 32)
  (t2 ^^^ (t2 >>> 14), s)

/-- Embedding of `seedFromString` (src/src/App.tsx, lines 81-85): a rolling
hash `n = (n * 31 + charCode) >>> 0` over the characters, then `n || 1`. -/
def seedFromString (s : String) : Nat :=
  let n := s.data.foldl (fun n c => (n * 31 + c.toNat) % 2 ^ 32) 0
  if n = 0 then 1 else n

/-- The swap `[a[i], a[j]] = [a[j], a[i]]` on a list; out-of-range indices
leave the list unchanged (the shuffle loops only produce in-range indices). -/
def listSwap {α : Type} (a : List α) (i j : Nat) : List α :=
  match a[i]?, a[j]? with
  | some x, some y => (a.set i y).set j x
  | _, _ => a

/-- The Fisher-Yates loop of `seededShuffle`: index `i` runs downward; at each
step the PRNG closure `rnd` (modelled as the state-threading step `next`,
returning a 32-bit numerator `u` and the next state) picks
`j = ⌊(u / 2^32)·(i+1)⌋ = u·(i+1) / 2^32` (exact, because `u·(i+1)` stays well
below `2^53`, so the JS float product is error-free) and `a[i]` is swapped
with `a[j]`. -/
def fyLoop {α : Type} (next : Nat → Nat × Nat) : Nat → Nat → List α → List α × Nat
  | g, 0, a => (a, g)
  | g, k + 1, a =>
    let r := next g
    let j := r.1 * (k + 2) / 2 ^ 32
    fyLoop next r.2 k (listSwap a (k + 1) j)

/-- Embedding of `seededShuffle` (src/src/App.tsx, lines 86-94): copy the
input, run Fisher-Yates driven by `mulberry32(seedFromString(seedStr))`. -/
def seededShuffle {α : Type} (arr : List α) (seedStr : String) : List α :=
  (fyLoop mulberry32Next (seedFromString seedStr) (arr.length - 1) arr).1

/-- The Fisher-Yates loop of `shuffleArray` (src/unnamed/part_000, lines
184-191). `Math.random()` yields floats of the form `m / 2^53`; the entropy
source is modelled as an oracle `rand` indexed by the loop counter, reduced
mod `2 ^ 53`, and `j = ⌊random·(i+1)⌋ = m·(i+1) / 2^53`. -/
def saLoop {α : Type} (rand : Nat → Nat) : Nat → List α → List α
  | 0, a => a
  | k + 1, a =>
    let u := rand (k + 1) % 2 ^ 53
    let j := u * (k + 2) / 2 ^ 53
    saLoop rand k (listSwap a (k + 1) j)

/-- Embedding of the unseeded `shuffleArray`, parameterized by the entropy
oracle. -/
def shuffleArray {α : Type} (rand : Nat → Nat) (arr : List α) : List α :=
  saLoop rand (arr.length - 1) arr

/-- Object-level embedding of `seededShuffle` for the frame property: the
state is the pair (contents of the caller's array object, contents of the
fresh copy allocated by `[...arr]`). Every write statement of the source loop
targets the copy; the loop threads both cells so that the theorem about the
input cell is about where the writes go, not baked in by construction. -/
def fyLoopSt {α : Type} (next : Nat → Nat × Nat) : Nat → Nat → List α × List α → (List α × List α) × Nat
  | g, 0, st => (st, g)
  | g, k + 1, st =>
    let r := next g
    let j := r.1 * (k + 2) / 2 ^ 32
    fyLoopSt next r.2 k (st.1, listSwap st.2 (k + 1) j)

/-- Stateful `seededShuffle`: returns (final contents of the input array
object, the returned fresh array). -/
def seededShuffleSt {α : Type} (arr : List α) (seedStr : String) : List α × List α :=
  (fyLoopSt mulberry32Next (seedFromString seedStr) (arr.length - 1) (arr, arr)).1

/-- Object-level embedding of the `shuffleArray` loop (the copy is made by
`arr.slice()`); writes target the copy cell only. -/
def saLoopSt {α : Type} (rand : Nat → Nat) : Nat → List α × List α → List α × List α
  | 0, st => st
  | k + 1, st =>
    let u := rand (k + 1) % 2 ^ 53
    let j := u * (k + 2) / 2 ^ 53
    saLoopSt rand k (st.1, listSwap st.2 (k + 1) j)

/-- Stateful `shuffleArray`: returns (final contents of the input array
object, the returned fresh array). -/
def shuffleArraySt {α : Type} (rand : Nat → Nat) (arr : List α) : List α × List α :=
  saLoopSt rand (arr.length - 1) (arr, arr)

/-- A choice of the simpler bank format of src/src/App.tsx. -/
structure BChoice where
  id : String
  text : String
  correct : Bool
deriving DecidableEq

/-- A question of the simpler bank format of src/src/App.tsx. -/
structure BQuestion where
  id : String
  prompt : String
  choices : List BChoice
deriving DecidableEq

/-- A bank: `{ title: string; questions: Question[] }` (src/src/App.tsx). -/
structure Bank where
  title : String
  questions : List BQuestion
deriving DecidableEq

/-- The merge loop of `onLoadBank` (src/src/App.tsx, lines 247-255): walk the
incoming questions, skipping any whose id is in the seen-id set, appending the
rest and adding their ids to the set. The JS `Set` of seen ids is modelled as
a list queried by membership. -/
def mergeLoop : List BQuestion → List String → List BQuestion
  | [], _ => []
  | q :: rest, ids =>
    if q.id ∈ ids then mergeLoop rest ids
    else q :: mergeLoop rest (q.id :: ids)

/-- Embedding of the `merge=true` branch of `onLoadBank` (src/src/App.tsx,
lines 243-260): keeps the existing questions, appends the incoming questions
whose ids were not seen, and concatenates the titles (`b.title || "Bank"`
defaults a falsy incoming title). -/
def onLoadBankMerge (bank b : Bank) : Bank :=
  { title := bank.title ++ " + " ++ (if b.title = "" then "Bank" else b.title),
    questions := bank.questions ++ mergeLoop b.questions (bank.questions.map (·.id)) }

/-- JSON values, for the import shape checks. -/
inductive Json where
  | null
  | bool (b : Bool)
  | num (n : Int)
  | str (s : String)
  | arr (elems : List Json)
  | obj (fields : List (String × Json))

/-- Embedding of the shape test of `onLoadBank` (src/src/App.tsx, lines
244-246): after `JSON.parse`, the code throws unless `b.questions` is an
array (`if (!Array.isArray(b.questions)) throw new Error("Invalid bank
JSON")`); property access on a non-object yields `undefined` (or throws a
TypeError on `null`), so every non-object is likewise rejected. The contents
of the `questions` array are not inspected. -/
def onLoadBankCheck (v : Json) : Except String Json :=
  match v with
  | .obj fields =>
    match fields.lookup "questions" with
    | some (.arr _) => .ok v
    | _ => .error "Invalid bank JSON"
  | _ => .error "Invalid bank JSON"

/-- Embedding of the shape test of `handleImportJSON` (src/unnamed/part_000,
lines 311-324): after `JSON.parse`, the code throws unless the parsed value
is itself an array (`if (!Array.isArray(arr)) throw ...`). The contents of
the array are not inspected. -/
def handleImportJSONCheck (v : Json) : Except String (List Json) :=
  match v with
  | .arr elems => .ok elems
  | _ => .error "JSON must be an array of questions"

/-- Shape predicate: an object whose `questions` field holds an array. -/
def isQuestionsObj (v : Json) : Bool :=
  match v with
  | .obj fields =>
    match fields.lookup "questions" with
    | some (.arr _) => true
    | _ => false
  | _ => false

/-- Shape predicate: a bare JSON array. -/
def isJsonArray (v : Json) : Bool :=
  match v with
  | .arr _ => true
  | _ => false

/-! Concrete inputs used by witnesses and counterexamples. -/

/-- The empty answer record (all response fields absent/empty). -/
def emptyAns : SessionAnswer := .mk none [] [] [] []

/-- A case question with no parts: its total possible points are 0. -/
def emptyCaseQ : Question := .mk "c0" "case" none [] [] [] [] [] []

/-- Part 1 of the spec's case example: a single-choice part worth 1 point. -/
def exPart1 : Question := .mk "p1" "single" none [⟨"a", "A", true⟩] [] [] [] [] []

/-- Part 2 of the spec's case example: a single-choice part worth 2 points. -/
def exPart2 : Question := .mk "p2" "single" (some ⟨none, some 2⟩) [⟨"a", "A", true⟩] [] [] [] [] []

/-- The spec's case example: two parts worth 1 and 2 points. -/
def exCaseQ : Question := .mk "cs" "case" none [] [] [] [] [] [exPart1, exPart2]

/-- Answer to the case example: part 1 fully correct, part 2 wrong. -/
def exCaseAns : SessionAnswer :=
  .mk none [] [] []
    [("p1", .mk (some ["a"]) [] [] [] []), ("p2", .mk (some ["b"]) [] [] [] [])]

/-- The spec's multi-choice example: points 3, correct set `{a, c}`. -/
def exMultiQ : Question :=
  .mk "m1" "multi" (some ⟨some "partial", some 3⟩)
    [⟨"a", "A", true⟩, ⟨"b", "B", false⟩, ⟨"c", "C", true⟩, ⟨"d", "D", false⟩] [] [] [] [] []

/-- Selection `{a, b}` for the multi-choice example. -/
def exMultiAns : SessionAnswer := .mk (some ["a", "b"]) [] [] [] []

/-- A question whose type tag is not one of the six supported types. -/
def unknownTypeQ : Question := .mk "u1" "essay" none [] [] [] [] [] []

/-- A single-choice question in which no choice is marked correct. -/
def noCorrectQ : Question :=
  .mk "s1" "single" none [⟨"a", "A", false⟩, ⟨"b", "B", false⟩] [] [] [] [] []

/-- Existing bank A with one question of id `a`. -/
def exBankA : Bank := ⟨"A", [⟨"a", "old prompt", [⟨"x", "X", true⟩]⟩]⟩

/-- Incoming bank B with one id already in A (different content) and one new id. -/
def exBankB : Bank := ⟨"B", [⟨"a", "new prompt", []⟩, ⟨"b", "fresh", []⟩]⟩

/-- A question-shaped JSON record (id, prompt, choices). -/
def sampleQuestionJson : Json :=
  .obj [("id", .str "q1"), ("prompt", .str "?"),
        ("choices", .arr [.obj [("id", .str "a"), ("text", .str "A"), ("correct", .bool true)]])]

/-- A concrete session with two questions and the cursor on the last index. -/
def exSession : PersistedSession := ⟨["q1", "q2"], 1⟩

/-! Helper lemmas. -/

/-- Replacing the element at a valid position and moving it to the front is a
permutation: if `t[k] = y` then `y :: t.set k x` is a permutation of `x :: t`. -/
theorem getSet_cons_perm {α : Type} (t : List α) (k : Nat) (x y : α) (h : t[k]? = some y) :
    List.Perm (y :: t.set k x) (x :: t) := by
  induction t generalizing k with
  | nil => simp at h
  | cons z t' ih =>
    cases k with
    | zero =>
      simp only [List.getElem?_cons_zero, Option.some.injEq] at h
      subst h
      simpa using List.Perm.swap x z t'
    | succ k =>
      simp only [List.getElem?_cons_succ] at h
      have ih' := ih k h
      simp only [List.set_cons_succ]
      exact ((List.Perm.swap z y _).trans (ih'.cons z)).trans (List.Perm.swap x z t')

/-- The double `set` implementing a swap of two valid positions is a
permutation of the original list. -/
theorem set_set_swap_perm {α : Type} (a : List α) (i j : Nat) (x y : α)
    (hi : a[i]? = some x) (hj : a[j]? = some y) :
    List.Perm ((a.set i y).set j x) a := by
  induction a generalizing i j with
  | nil => simp at hi
  | cons w t ih =>
    cases i with
    | zero =>
      simp only [List.getElem?_cons_zero, Option.some.injEq] at hi
      subst hi
      cases j with
      | zero =>
        simp only [List.getElem?_cons_zero, Option.some.injEq] at hj
        subst hj
        simp
      | succ k =>
        simp only [List.getElem?_cons_succ] at hj
        simp only [List.set_cons_zero, List.set_cons_succ]
        exact getSet_cons_perm t k w y hj
    | succ m =>
      simp only [List.getElem?_cons_succ] at hi
      cases j with
      | zero =>
        simp only [List.getElem?_cons_zero, Option.some.injEq] at hj
        subst hj
        simp only [List.set_cons_succ, List.set_cons_zero]
        exact getSet_cons_perm t m w x hi
      | succ k =>
        simp only [List.getElem?_cons_succ] at hj
        simp only [List.set_cons_succ]
        exact (ih m k hi hj).cons w

/-- `listSwap` always yields a permutation of its input. -/
theorem listSwap_perm {α : Type} (a : List α) (i j : Nat) :
    List.Perm (listSwap a i j) a := by
  unfold listSwap
  cases hi : a[i]? with
  | none =>
    cases hj : a[j]? <;> exact List.Perm.refl a
  | some x =>
    cases hj : a[j]? with
    | none => exact List.Perm.refl a
    | some y => exact set_set_swap_perm a i j x y hi hj

/-- The seeded Fisher-Yates loop permutes its list argument. -/
theorem fyLoop_fst_perm {α : Type} (next : Nat → Nat × Nat) (i : Nat) :
    ∀ (g : Nat) (a : List α), List.Perm (fyLoop next g i a).1 a := by
  induction i with
  | zero => intro g a; exact List.Perm.refl a
  | succ k ih =>
    intro g a
    rw [fyLoop]
    exact (ih _ _).trans (listSwap_perm a (k + 1) _)

/-- The unseeded Fisher-Yates loop permutes its list argument. -/
theorem saLoop_perm {α : Type} (rand : Nat → Nat) (i : Nat) :
    ∀ a : List α, List.Perm (saLoop rand i a) a := by
  induction i with
  | zero => intro a; exact List.Perm.refl a
  | succ k ih =>
    intro a
    rw [saLoop]
    exact (ih _).trans (listSwap_perm a (k + 1) _)

/-- The object-level seeded loop writes only to the copy cell: the input cell
is threaded unchanged and the copy cell computes the pure loop. -/
theorem fyLoopSt_eq {α : Type} (next : Nat → Nat × Nat) (i : Nat) :
    ∀ (g : Nat) (o a : List α),
      fyLoopSt next g i (o, a) = ((o, (fyLoop next g i a).1), (fyLoop next g i a).2) := by
  induction i with
  | zero => intro g o a; rfl
  | succ k ih =>
    intro g o a
    rw [fyLoopSt, fyLoop]
    exact ih _ _ _

/-- The object-level unseeded loop writes only to the copy cell. -/
theorem saLoopSt_eq {α : Type} (rand : Nat → Nat) (i : Nat) :
    ∀ (o a : List α), saLoopSt rand i (o, a) = (o, saLoop rand i a) := by
  induction i with
  | zero => intro o a; rfl
  | succ k ih =>
    intro o a
    rw [saLoopSt, saLoop]
    exact ih _ _

/-- Bool `contains` agrees with list membership for strings. -/
theorem contains_true_iff (l : List String) (a : String) : l.contains a = true ↔ a ∈ l := by
  simp

/-- Deduplication does not change the finset of elements. -/
theorem dedup_toFinset (l : List String) : l.dedup.toFinset = l.toFinset := by
  apply List.toFinset.ext
  intro x
  exact List.mem_dedup

/-- The value of the `+1` / `-1` fold of the multi branch over a
duplicate-free list: the number of selected ids in the correct set minus the
number of selected ids outside it. -/
theorem foldl_pm_eq (C : List String) :
    ∀ l : List String, l.Nodup → ∀ acc : Int,
      l.foldl (fun s cid => s + (if C.contains cid then 1 else -1)) acc =
        acc + ((l.toFinset ∩ C.toFinset).card : Int) - ((l.toFinset \ C.toFinset).card : Int) := by
  intro l
  induction l with
  | nil => intro _ acc; simp
  | cons x t ih =>
    intro hnd acc
    obtain ⟨hx, ht⟩ := List.nodup_cons.mp hnd
    have hxT : x ∉ t.toFinset := by simpa using hx
    rw [List.foldl_cons, ih ht]
    by_cases hc : C.contains x = true
    · have hmem : x ∈ C := (contains_true_iff C x).mp hc
      have hxC : x ∈ C.toFinset := List.mem_toFinset.mpr hmem
      rw [if_pos hc, List.toFinset_cons, Finset.insert_inter_of_mem hxC,
        Finset.insert_sdiff_of_mem _ hxC,
        Finset.card_insert_of_not_mem (fun hh => hxT (Finset.mem_inter.mp hh).1)]
      push_cast
      ring
    · have hmem : x ∉ C := fun hh => hc ((contains_true_iff C x).mpr hh)
      have hxC : x ∉ C.toFinset := fun hh => hmem (List.mem_toFinset.mp hh)
      rw [if_neg hc, List.toFinset_cons, Finset.insert_inter_of_not_mem hxC,
        Finset.insert_sdiff_of_not_mem _ hxC,
        Finset.card_insert_of_not_mem (fun hh => hxT (Finset.mem_sdiff.mp hh).1)]
      push_cast
      ring

/-- Characterization of a successful `scoreParts` run: the first component is
the sum of the part budgets and the second the sum of the per-part awards. -/
theorem scoreParts_some_eq (pans : List (String × SessionAnswer)) :
    ∀ (ps : List Question) (t g : Int),
      scoreParts ps pans = some (t, g) →
      t = (ps.map (fun p => (p.scoring.bind (·.points)).getD 1)).sum ∧
      g = (ps.map (partAward pans)).sum := by
  intro ps
  induction ps with
  | nil =>
    intro t g h
    rw [scoreParts] at h
    simp only [Option.some.injEq, Prod.mk.injEq] at h
    obtain ⟨h1, h2⟩ := h
    simp [← h1, ← h2]
  | cons p rest ih =>
    intro t g h
    rw [scoreParts] at h
    cases hl : pans.lookup p.id with
    | none =>
      rw [hl] at h
      cases hr : scoreParts rest pans with
      | none => rw [hr] at h; simp at h
      | some tg =>
        obtain ⟨t0, g0⟩ := tg
        rw [hr] at h
        simp only [Option.some.injEq, Prod.mk.injEq] at h
        obtain ⟨ht, hg⟩ := h
        obtain ⟨iht, ihg⟩ := ih t0 g0 hr
        subst ht; subst hg
        constructor
        · simp [List.map_cons, List.sum_cons, iht]; ring
        · simp [List.map_cons, List.sum_cons, ihg, partAward, hl]
    | some a =>
      simp only [hl] at h
      cases hq : scoreQuestion p a with
      | none => rw [hq] at h; simp at h
      | some res =>
        rw [hq] at h
        cases hr : scoreParts rest pans with
        | none => rw [hr] at h; simp at h
        | some tg =>
          obtain ⟨t0, g0⟩ := tg
          rw [hr] at h
          simp only [Option.some.injEq, Prod.mk.injEq] at h
          obtain ⟨ht, hg⟩ := h
          obtain ⟨iht, ihg⟩ := ih t0 g0 hr
          subst ht; subst hg
          constructor
          · simp [List.map_cons, List.sum_cons, iht]; ring
          · simp [List.map_cons, List.sum_cons, ihg, partAward, hl, hq]; ring

/-- `mergeLoop` only consults the seen-id list through membership. -/
theorem mergeLoop_congr :
    ∀ (bs : List BQuestion) (ids1 ids2 : List String),
      (∀ x, x ∈ ids1 ↔ x ∈ ids2) → mergeLoop bs ids1 = mergeLoop bs ids2 := by
  intro bs
  induction bs with
  | nil => intro _ _ _; rfl
  | cons q rest ih =>
    intro ids1 ids2 hiff
    rw [mergeLoop, mergeLoop]
    by_cases hm : q.id ∈ ids1
    · rw [if_pos hm, if_pos ((hiff q.id).mp hm)]
      exact ih ids1 ids2 hiff
    · rw [if_neg hm, if_neg (fun hh => hm ((hiff q.id).mpr hh))]
      congr 1
      refine ih _ _ (fun x => ?_)
      simp only [List.mem_cons]
      exact or_congr Iff.rfl (hiff x)

/-- Seeding the seen-id list with an id that no incoming question carries does
not change the merge result. -/
theorem mergeLoop_skip :
    ∀ (bs : List BQuestion) (x : String) (ids : List String),
      x ∉ bs.map (·.id) → mergeLoop bs (x :: ids) = mergeLoop bs ids := by
  intro bs
  induction bs with
  | nil => intro _ _ _; rfl
  | cons q rest ih =>
    intro x ids hx
    simp only [List.map_cons, List.mem_cons, not_or] at hx
    obtain ⟨hx1, hx2⟩ := hx
    rw [mergeLoop, mergeLoop]
    by_cases hm : q.id ∈ ids
    · rw [if_pos (List.mem_cons_of_mem x hm), if_pos hm]
      exact ih x ids hx2
    · have hnotc : q.id ∉ x :: ids := by
        intro hh
        rcases List.mem_cons.mp hh with hh1 | hh2
        · exact hx1 hh1.symm
        · exact hm hh2
      rw [if_neg hnotc, if_neg hm]
      congr 1
      have hswap : mergeLoop rest (q.id :: x :: ids) = mergeLoop rest (x :: q.id :: ids) :=
        mergeLoop_congr rest _ _ (fun y => by
          simp only [List.mem_cons]
          tauto)
      rw [hswap]
      exact ih x (q.id :: ids) hx2

/-- When the incoming ids are duplicate-free, the merge loop keeps exactly the
incoming questions whose id is not among the seen ids, in order. -/
theorem mergeLoop_eq_filter :
    ∀ (bs : List BQuestion) (ids : List String),
      (bs.map (·.id)).Nodup →
      mergeLoop bs ids = bs.filter (fun q => decide (q.id ∉ ids)) := by
  intro bs
  induction bs with
  | nil => intro _ _; rfl
  | cons q rest ih =>
    intro ids hnd
    simp only [List.map_cons, List.nodup_cons] at hnd
    obtain ⟨hq, hrest⟩ := hnd
    rw [mergeLoop, List.filter_cons]
    by_cases hm : q.id ∈ ids
    · have hd : decide (q.id ∉ ids) = false := decide_eq_false (fun hh => hh hm)
      rw [if_pos hm, hd]
      simp only [Bool.false_eq_true, if_false]
      exact ih ids hrest
    · have hd : decide (q.id ∉ ids) = true := decide_eq_true hm
      rw [if_neg hm, mergeLoop_skip rest q.id ids hq, hd]
      simp only [if_true]
      rw [ih ids hrest]

/-! Claim theorems. -/

/-- C3: the seeded shuffle is deterministic: two invocations of
`seededShuffle` with the same seed string and the same input list produce the
same output ordering. (The embedding re-derives the whole generator state from
the seed on every call, exactly as the source allocates a fresh `mulberry32`
closure per call, so equal seeds and inputs force equal outputs.) -/
theorem seededShuffle_deterministic {α : Type} (l1 l2 : List α) (s1 s2 : String)
    (hs : s1 = s2) (hl : l1 = l2) : seededShuffle l1 s1 = seededShuffle l2 s2 := by
  subst hs
  subst hl
  rfl

/-- Witness for C3 at a concrete seed and input. -/
theorem seededShuffle_deterministic_witness :
    seededShuffle ["a", "b", "c"] "PL300-1" = seededShuffle ["a", "b", "c"] "PL300-1" :=
  seededShuffle_deterministic ["a", "b", "c"] ["a", "b", "c"] "PL300-1" "PL300-1" rfl rfl

/-- C4: for every non-empty input and every seed, the output of
`seededShuffle` is a permutation of the input (same multiset: nothing
duplicated, nothing omitted) with the same length; likewise for the unseeded
`shuffleArray` under every entropy oracle. -/
theorem shuffle_is_permutation {α : Type} (l : List α) (s : String) (_hne : l ≠ []) :
    List.Perm (seededShuffle l s) l ∧ (seededShuffle l s).length = l.length ∧
    ∀ rand : Nat → Nat,
      List.Perm (shuffleArray rand l) l ∧ (shuffleArray rand l).length = l.length := by
  have h1 : List.Perm (seededShuffle l s) l :=
    fyLoop_fst_perm mulberry32Next (l.length - 1) (seedFromString s) l
  refine ⟨h1, h1.length_eq, fun rand => ?_⟩
  have h2 : List.Perm (shuffleArray rand l) l := saLoop_perm rand (l.length - 1) l
  exact ⟨h2, h2.length_eq⟩

/-- Witness for C4 at a concrete non-empty input. -/
theorem shuffle_is_permutation_witness :
    (["a", "b", "c"] : List String) ≠ [] ∧
    (List.Perm (seededShuffle ["a", "b", "c"] "PL300-1") ["a", "b", "c"] ∧
      (seededShuffle ["a", "b", "c"] "PL300-1").length = (["a", "b", "c"] : List String).length ∧
      ∀ rand : Nat → Nat,
        List.Perm (shuffleArray rand ["a", "b", "c"]) ["a", "b", "c"] ∧
          (shuffleArray rand ["a", "b", "c"]).length = (["a", "b", "c"] : List String).length) :=
  ⟨by decide, shuffle_is_permutation ["a", "b", "c"] "PL300-1" (by decide)⟩

/-- C9: neither shuffle mutates its input: in the object-level embedding that
tracks the caller's array object and the fresh copy separately, the input
object's contents after the call equal the contents before, and the returned
array is the separately allocated copy holding the shuffled contents. -/
theorem shuffle_does_not_mutate_input {α : Type} (arr : List α) (s : String)
    (rand : Nat → Nat) :
    (seededShuffleSt arr s).1 = arr ∧ (seededShuffleSt arr s).2 = seededShuffle arr s ∧
    (shuffleArraySt rand arr).1 = arr ∧ (shuffleArraySt rand arr).2 = shuffleArray rand arr := by
  have h1 := fyLoopSt_eq mulberry32Next (arr.length - 1) (seedFromString s) arr arr
  have h2 := saLoopSt_eq rand (arr.length - 1) arr arr
  refine ⟨?_, ?_, ?_, ?_⟩
  · show (fyLoopSt mulberry32Next (seedFromString s) (arr.length - 1) (arr, arr)).1.1 = arr
    rw [h1]
  · show (fyLoopSt mulberry32Next (seedFromString s) (arr.length - 1) (arr, arr)).1.2 =
      seededShuffle arr s
    rw [h1]
    rfl
  · show (saLoopSt rand (arr.length - 1) (arr, arr)).1 = arr
    rw [h2]
  · show (saLoopSt rand (arr.length - 1) (arr, arr)).2 = shuffleArray rand arr
    rw [h2]
    rfl

/-- C5: navigation preserves the cursor bound: starting from a cursor inside
`[0, len-1]`, `goNext`, `goPrev` and the jump-to-index click (whose call sites
enumerate `questionOrder`, so the target is in range) leave the cursor inside
`[0, len-1]`; `goNext` at the last index and `goPrev` at index 0 do not move
the cursor. -/
theorem navigation_preserves_cursor_bounds (s : PersistedSession)
    (h0 : 0 ≤ s.currentIdx) (h1 : s.currentIdx ≤ (s.questionOrder.length : Int) - 1) :
    (0 ≤ (goNext s).currentIdx ∧ (goNext s).currentIdx ≤ (s.questionOrder.length : Int) - 1) ∧
    (0 ≤ (goPrev s).currentIdx ∧ (goPrev s).currentIdx ≤ (s.questionOrder.length : Int) - 1) ∧
    (∀ i : Int, 0 ≤ i → i ≤ (s.questionOrder.length : Int) - 1 →
      0 ≤ (jumpTo s i).currentIdx ∧ (jumpTo s i).currentIdx ≤ (s.questionOrder.length : Int) - 1) ∧
    (s.currentIdx = (s.questionOrder.length : Int) - 1 → (goNext s).currentIdx = s.currentIdx) ∧
    (s.currentIdx = 0 → (goPrev s).currentIdx = 0) := by
  simp only [goNext, goPrev, jumpTo, clamp]
  refine ⟨⟨by omega, by omega⟩, ⟨by omega, by omega⟩,
    fun i hi1 hi2 => ⟨by omega, by omega⟩, fun hh => by omega, fun hh => by omega⟩

/-- Witness for C5 at a concrete two-question session with the cursor on the
last index. -/
theorem navigation_preserves_cursor_bounds_witness :
    0 ≤ exSession.currentIdx ∧
    ((0 ≤ (goNext exSession).currentIdx ∧
        (goNext exSession).currentIdx ≤ (exSession.questionOrder.length : Int) - 1) ∧
      (0 ≤ (goPrev exSession).currentIdx ∧
        (goPrev exSession).currentIdx ≤ (exSession.questionOrder.length : Int) - 1) ∧
      (∀ i : Int, 0 ≤ i → i ≤ (exSession.questionOrder.length : Int) - 1 →
        0 ≤ (jumpTo exSession i).currentIdx ∧
          (jumpTo exSession i).currentIdx ≤ (exSession.questionOrder.length : Int) - 1) ∧
      (exSession.currentIdx = (exSession.questionOrder.length : Int) - 1 →
        (goNext exSession).currentIdx = exSession.currentIdx) ∧
      (exSession.currentIdx = 0 → (goPrev exSession).currentIdx = 0)) :=
  ⟨by decide, navigation_preserves_cursor_bounds exSession (by decide) (by decide)⟩

/-- C7 (amended): each import path accepts exactly one shape, with element
contents unvalidated: `onLoadBank` succeeds exactly on JSON objects whose
`questions` field holds an array (bare arrays are rejected), and
`handleImportJSON` succeeds exactly on bare JSON arrays (objects with a
`questions` field are rejected); everything else fails with an error
distinguishable from success. -/
theorem bank_import_shape_characterization (v : Json) :
    (onLoadBankCheck v).isOk = isQuestionsObj v ∧
    (handleImportJSONCheck v).isOk = isJsonArray v := by
  refine ⟨?_, ?_⟩
  · cases v with
    | obj fields =>
      cases hl : fields.lookup "questions" with
      | none =>
        simp only [onLoadBankCheck, isQuestionsObj, hl]
        rfl
      | some j =>
        cases j <;> simp only [onLoadBankCheck, isQuestionsObj, hl] <;> rfl
    | null => rfl
    | bool b => rfl
    | num n => rfl
    | str s => rfl
    | arr es => rfl
  · cases v <;> rfl

/-- Counterexample for C7 as stated: a bare array of question-shaped records,
which the claim says `onLoadBank` accepts, is rejected by it; and an object
with a `questions` array, which the claim says `handleImportJSON` accepts, is
rejected by it. -/
theorem bank_import_bare_array_rejected_cx :
    onLoadBankCheck (Json.arr [sampleQuestionJson]) = Except.error "Invalid bank JSON" ∧
    handleImportJSONCheck (Json.obj [("questions", Json.arr [sampleQuestionJson])]) =
      Except.error "JSON must be an array of questions" :=
  ⟨rfl, rfl⟩

/-- C8 (amended): for every question whose type tag is not one of the six
supported tags, `scoreQuestion` falls off the switch and returns no result
(`undefined`, modelled as `none`); no `UnscorableQuestionType` signal exists
and no `{correct: false, points: 0}` substitute is produced. -/
theorem scoreQuestion_unknown_type_none (q : Question) (ans : SessionAnswer)
    (h1 : q.qtype ≠ "single") (h2 : q.qtype ≠ "multi") (h3 : q.qtype ≠ "match")
    (h4 : q.qtype ≠ "order") (h5 : q.qtype ≠ "matrix") (h6 : q.qtype ≠ "case") :
    scoreQuestion q ans = none := by
  obtain ⟨i, t, sc, ch, pr, od, rs, cm, ps⟩ := q
  simp only [Question.qtype] at h1 h2 h3 h4 h5 h6
  rw [scoreQuestion]
  rw [if_neg h1, if_neg h2, if_neg h3, if_neg h4, if_neg h5, if_neg h6]

/-- Witness for the amended C8 at a concrete `essay`-typed question. -/
theorem scoreQuestion_unknown_type_none_witness :
    unknownTypeQ.qtype ≠ "single" ∧ scoreQuestion unknownTypeQ emptyAns = none :=
  ⟨by decide, scoreQuestion_unknown_type_none unknownTypeQ emptyAns (by decide) (by decide)
    (by decide) (by decide) (by decide) (by decide)⟩

/-- Counterexample for C8 as stated: on an unsupported type tag the scoring
function does not produce the claimed zero-point incorrect result; it produces
no result at all. -/
theorem scoreQuestion_unknown_type_cx :
    scoreQuestion unknownTypeQ emptyAns ≠ some ⟨false, 0⟩ ∧
    scoreQuestion unknownTypeQ emptyAns = none :=
  ⟨by decide, rfl⟩

/-- C10: a single-choice question in which no choice is marked correct scores
`{correct: false, points: 0}` for every possible answer: the correct id is
absent, so no selected id can match it, and scoring never fails. -/
theorem scoreQuestion_single_no_correct (q : Question) (ans : SessionAnswer)
    (hty : q.qtype = "single") (hnc : ∀ c ∈ q.choices, c.isCorrect = false) :
    scoreQuestion q ans = some ⟨false, 0⟩ := by
  obtain ⟨i, t, sc, ch, pr, od, rs, cm, ps⟩ := q
  simp only [Question.qtype] at hty
  simp only [Question.choices] at hnc
  subst hty
  rw [scoreQuestion]
  rw [if_pos rfl]
  have hfind : ch.find? (·.isCorrect) = none :=
    List.find?_eq_none.mpr (fun c hc => by simp [hnc c hc])
  rw [hfind]
  cases hsel : ans.selected with
  | none => simp [hsel]
  | some l =>
    cases l with
    | nil => simp [hsel]
    | cons a tl =>
      cases tl with
      | nil => simp [hsel]
      | cons b tl2 => simp [hsel]

/-- Witness for C10 at a concrete correct-less single question. -/
theorem scoreQuestion_single_no_correct_witness :
    noCorrectQ.qtype = "single" ∧ scoreQuestion noCorrectQ emptyAns = some ⟨false, 0⟩ :=
  ⟨rfl, scoreQuestion_single_no_correct noCorrectQ emptyAns rfl (by decide)⟩

/-- C6: merging bank B into bank A appends exactly those questions of B whose
id is absent from A, in B's order (B's ids are pairwise distinct, per the data
model's id-uniqueness invariant); questions of B with an id already in A are
dropped silently; every original question of A is unchanged in content and
position (the merged list starts with A's questions verbatim); and the merged
title is the concatenation marker of both titles. -/
theorem onLoadBankMerge_appends_only_new_ids (A B : Bank)
    (hB : (B.questions.map (·.id)).Nodup) :
    (onLoadBankMerge A B).questions =
      A.questions ++ B.questions.filter (fun q => decide (q.id ∉ A.questions.map (·.id))) ∧
    (onLoadBankMerge A B).questions.take A.questions.length = A.questions ∧
    (onLoadBankMerge A B).title =
      A.title ++ " + " ++ (if B.title = "" then "Bank" else B.title) := by
  have hq : (onLoadBankMerge A B).questions =
      A.questions ++ mergeLoop B.questions (A.questions.map (·.id)) := rfl
  rw [hq, mergeLoop_eq_filter B.questions _ hB]
  refine ⟨rfl, ?_, rfl⟩
  exact List.take_left A.questions _

/-- Witness for C6: bank B shares id `a` with bank A and brings one new id
`b`; exactly the new question is appended and A's question is untouched. -/
theorem onLoadBankMerge_appends_only_new_ids_witness :
    (exBankB.questions.map (·.id)).Nodup ∧
    (onLoadBankMerge exBankA exBankB).questions =
      exBankA.questions ++
        exBankB.questions.filter (fun q => decide (q.id ∉ exBankA.questions.map (·.id))) :=
  ⟨by decide, (onLoadBankMerge_appends_only_new_ids exBankA exBankB (by decide)).1⟩

/-- C1 (amended): scoring a case question recursively scores every part and
sums awards against budgets (default 1 per part); whenever scoring yields a
result, the `correct` flag is true iff the gained sum is at least the total
possible AND the total possible is positive (a case whose part budgets sum to
zero — in particular one with no parts — is always marked incorrect), and the
reported points are the gained sum clamped from above to the declared point
cap, defaulting to the sum of part budgets. -/
theorem scoreQuestion_case_points_and_flag (q : Question) (ans : SessionAnswer) (r : ScoreRes)
    (hty : q.qtype = "case") (h : scoreQuestion q ans = some r) :
    (r.correct = true ↔
      caseGainedSpec q ans ≥ caseTotalSpec q ∧ caseTotalSpec q > 0) ∧
    r.points = min (caseCapSpec q) (caseGainedSpec q ans) := by
  obtain ⟨i, t, sc, ch, pr, od, rs, cm, ps⟩ := q
  simp only [Question.qtype] at hty
  subst hty
  rw [scoreQuestion] at h
  rw [if_neg (by decide : ("case" : String) ≠ "single"),
    if_neg (by decide : ("case" : String) ≠ "multi"),
    if_neg (by decide : ("case" : String) ≠ "match"),
    if_neg (by decide : ("case" : String) ≠ "order"),
    if_neg (by decide : ("case" : String) ≠ "matrix"),
    if_pos rfl] at h
  cases hsp : scoreParts ps ans.parts with
  | none => rw [hsp] at h; simp at h
  | some tg =>
    obtain ⟨tt, gg⟩ := tg
    rw [hsp] at h
    simp only [Option.some.injEq] at h
    obtain ⟨iht, ihg⟩ := scoreParts_some_eq ans.parts ps tt gg hsp
    have htot : caseTotalSpec (Question.mk i "case" sc ch pr od rs cm ps) = tt := by
      simp only [caseTotalSpec, Question.parts]
      exact iht.symm
    have hgain : caseGainedSpec (Question.mk i "case" sc ch pr od rs cm ps) ans = gg := by
      simp only [caseGainedSpec, Question.parts]
      exact ihg.symm
    subst h
    constructor
    · show decide (gg ≥ tt ∧ tt > 0) = true ↔ _
      rw [htot, hgain, decide_eq_true_iff]
    · show min ((sc.bind (·.points)).getD tt) gg = _
      rw [caseCapSpec, htot, hgain]
      simp only [Question.scoring]

/-- Counterexample to C1 as stated: a case question with no parts has total
possible 0 and gained 0, so the claimed iff (`correct` ⟷ gained ≥ total)
demands `correct = true`, but the code also requires a positive total and
returns `correct = false`. -/
theorem scoreQuestion_case_zero_total_cx :
    scoreQuestion emptyCaseQ emptyAns = some ⟨false, 0⟩ ∧
    caseGainedSpec emptyCaseQ emptyAns ≥ caseTotalSpec emptyCaseQ :=
  ⟨rfl, by decide⟩

/-- Witness for the amended C1 at the spec's example: parts worth 1 and 2,
part 1 fully correct, part 2 scoring 0, giving `{correct: false, points: 1}`. -/
theorem scoreQuestion_case_points_and_flag_witness :
    ((⟨false, (1 : Int)⟩ : ScoreRes).correct = true ↔
      caseGainedSpec exCaseQ exCaseAns ≥ caseTotalSpec exCaseQ ∧ caseTotalSpec exCaseQ > 0) ∧
    (⟨false, (1 : Int)⟩ : ScoreRes).points =
      min (caseCapSpec exCaseQ) (caseGainedSpec exCaseQ exCaseAns) :=
  scoreQuestion_case_points_and_flag exCaseQ exCaseAns ⟨false, 1⟩ rfl (by decide)

/-- C2: for every multi question scored in `partial` mode, the awarded points
are the sum of +1 per selected id in the correct-id set and -1 per selected id
outside it, clamped to `[0, points]` (expressed through the cardinalities of
the selected-set intersection and difference with the correct set), while the
`correct` flag is true iff the selected-id set equals the correct-id set
exactly — independent of the points awarded. -/
theorem scoreQuestion_multi_split (q : Question) (ans : SessionAnswer) (r : ScoreRes)
    (hty : q.qtype = "multi") (hmode : qMode q = "partial")
    (h : scoreQuestion q ans = some r) :
    r.points = max 0 (min (qPoints q)
      ((((selIds ans).toFinset ∩ (multiCorrectIds q).toFinset).card : Int) -
        (((selIds ans).toFinset \ (multiCorrectIds q).toFinset).card : Int))) ∧
    (r.correct = true ↔ (selIds ans).toFinset = (multiCorrectIds q).toFinset) := by
  obtain ⟨i, t, sc, ch, pr, od, rs, cm, ps⟩ := q
  simp only [Question.qtype] at hty
  subst hty
  simp only [qMode, Question.scoring] at hmode
  rw [scoreQuestion] at h
  rw [if_neg (by decide : ("multi" : String) ≠ "single"), if_pos rfl] at h
  simp only [] at h
  rw [hmode, if_neg (by decide : ("partial" : String) ≠ "all_or_nothing")] at h
  simp only [Option.some.injEq] at h
  subst h
  simp only [selIds, multiCorrectIds, qPoints, Question.choices, Question.scoring]
  have hselcard : (ans.selected.getD []).toFinset.card = (ans.selected.getD []).dedup.length := by
    rw [← dedup_toFinset]
    exact List.toFinset_card_of_nodup (List.nodup_dedup _)
  have hcorrcard :
      ((ch.filter (·.isCorrect)).map (·.id)).toFinset.card =
        ((ch.filter (·.isCorrect)).map (·.id)).dedup.length := by
    rw [← dedup_toFinset]
    exact List.toFinset_card_of_nodup (List.nodup_dedup _)
  constructor
  · show max 0 (min _ _) = max 0 (min _ _)
    rw [foldl_pm_eq ((ch.filter (·.isCorrect)).map (·.id)) (ans.selected.getD []).dedup
      (List.nodup_dedup _) 0]
    rw [dedup_toFinset]
    rw [zero_add]
  · show (_ && _) = true ↔ _
    simp only [Bool.and_eq_true, beq_iff_eq, List.all_eq_true]
    constructor
    · rintro ⟨hlen, hall⟩
      have hsub : ((ch.filter (·.isCorrect)).map (·.id)).toFinset ⊆
          (ans.selected.getD []).toFinset := by
        intro x hx
        have hx1 : x ∈ (ch.filter (·.isCorrect)).map (·.id) := List.mem_toFinset.mp hx
        have hx2 : x ∈ ((ch.filter (·.isCorrect)).map (·.id)).dedup := List.mem_dedup.mpr hx1
        have hx3 := hall x hx2
        have hx4 : x ∈ (ans.selected.getD []).dedup :=
          (contains_true_iff ((ans.selected.getD []).dedup) x).mp hx3
        exact List.mem_toFinset.mpr (List.mem_dedup.mp hx4)
      have hle : (ans.selected.getD []).toFinset.card ≤
          ((ch.filter (·.isCorrect)).map (·.id)).toFinset.card := by
        rw [hselcard, hcorrcard, hlen]
      exact (Finset.eq_of_subset_of_card_le hsub hle).symm
    · intro heq
      refine ⟨?_, fun cid hc => ?_⟩
      · have hcards := congrArg Finset.card heq
        rw [hselcard, hcorrcard] at hcards
        exact hcards
      · have hc1 : cid ∈ ((ch.filter (·.isCorrect)).map (·.id)).toFinset :=
          List.mem_toFinset.mpr (List.mem_dedup.mp hc)
        rw [← heq] at hc1
        exact (contains_true_iff ((ans.selected.getD []).dedup) cid).mpr
          (List.mem_dedup.mpr (List.mem_toFinset.mp hc1))

/-- Witness for C2 at the spec's example: points 3, correct set `{a, c}`,
selection `{a, b}`, yielding `{correct: false, points: 0}`. -/
theorem scoreQuestion_multi_split_witness :
    ((⟨false, (0 : Int)⟩ : ScoreRes).points = max 0 (min (qPoints exMultiQ)
      ((((selIds exMultiAns).toFinset ∩ (multiCorrectIds exMultiQ).toFinset).card : Int) -
        (((selIds exMultiAns).toFinset \ (multiCorrectIds exMultiQ).toFinset).card : Int)))) ∧
    ((⟨false, (0 : Int)⟩ : ScoreRes).correct = true ↔
      (selIds exMultiAns).toFinset = (multiCorrectIds exMultiQ).toFinset) :=
  scoreQuestion_multi_split exMultiQ exMultiAns ⟨false, 0⟩ rfl rfl (by decide)
